import Mathlib

/-!
Verification development for the StoryMaster landing page (src/App.tsx and
the unnamed variants src/unnamed/part_000, src/unnamed/part_001).

The program is a React single-page app. Its logic is embedded shallowly:
- strings are Lean `String`; JavaScript `toLowerCase` is modelled as
  per-character lowercasing of the character list;
- `String.prototype.includes` is modelled by the executable `containsSub`
  on character lists, related to the declarative `IsSubstring` predicate;
- the derived value `filteredContent` (src/App.tsx lines 82-89) becomes a
  pure function of the full content list and the search query;
- browser side effects (document attributes, speech synthesis, share,
  clipboard, file export) become explicit state-passing functions over
  small state records, one per platform capability.
-/

/-- One displayable unit of content, mirroring the object literals in
`allContent` (src/App.tsx lines 72-80): `{ type, title, desc, icon }`.
The `type` field is the string tag used by the source: "tip" or "example". -/
structure ContentItem where
  type : String
  title : String
  desc : String
  icon : String
deriving DecidableEq, Repr

/-- Boolean test that the character list `s` starts with `q`.
Helper for the model of `String.prototype.includes`. -/
def startsWith : List Char → List Char → Bool
  | _, [] => true
  | [], _ :: _ => false
  | c :: cs, d :: ds => c == d && startsWith cs ds

/-- Model of `String.prototype.includes`: `containsSub s q` decides whether
`q` occurs contiguously inside `s`. -/
def containsSub (s q : List Char) : Bool :=
  startsWith s q ||
    match s with
    | [] => false
    | _ :: cs => containsSub cs q

/-- Model of JavaScript `toLowerCase`: lowercase every character of the
string, yielding its character list. -/
def jsLower (s : String) : List Char :=
  s.data.map Char.toLower

/-- The filtering predicate used inside `allContent.filter` in
src/App.tsx lines 85-88: the lowercased title or the lowercased
description contains the lowercased query. -/
def itemMatches (searchQuery : String) (item : ContentItem) : Bool :=
  containsSub (jsLower item.title) (jsLower searchQuery) ||
    containsSub (jsLower item.desc) (jsLower searchQuery)

/-- Model of `filteredContent` (src/App.tsx lines 82-89). The source
guard `if (!searchQuery) return allContent` fires exactly when the query
string is empty, since only the empty string is falsy. -/
def filteredContent (allContent : List ContentItem) (searchQuery : String) :
    List ContentItem :=
  if searchQuery = "" then allContent
  else allContent.filter (itemMatches searchQuery)

/-- Declarative substring predicate: `q` occurs contiguously in `s`. -/
def IsSubstring (q s : List Char) : Prop :=
  ∃ pre post, s = pre ++ q ++ post

/-- The claim-side matching relation, written from the claim text: the
case-folded query is a substring of the case-folded title or of the
case-folded description. -/
def claimMatch (q : String) (i : ContentItem) : Prop :=
  IsSubstring (jsLower q) (jsLower i.title) ∨
    IsSubstring (jsLower q) (jsLower i.desc)

/-- Concrete content item whose title and description hold no whitespace;
used to exercise the whitespace-query behavior. -/
def cexItem : ContentItem := ⟨"tip", "abc", "def", "x"⟩

/-- Concrete one-element content list for counterexamples. -/
def cexList : List ContentItem := [cexItem]

/-- Modelled from the spec: the `Language` type (here `Lang`, since
Mathlib reserves the name `Language`) lives in src/i18n.ts, which is not
among the provided sources; spec section 3 and the language options
rendered in src/App.tsx (lines 127-133) and its `langMap` (line 12) fix
the closed set of codes: en, he, zh, hi, de, es, fr. -/
inductive Lang where
  | en
  | he
  | zh
  | hi
  | de
  | es
  | fr
deriving DecidableEq, Repr

/-- The string code of a language, as used for `document.documentElement.lang`
and in export file names. -/
def langCode : Lang → String
  | Lang.en => "en"
  | Lang.he => "he"
  | Lang.zh => "zh"
  | Lang.hi => "hi"
  | Lang.de => "de"
  | Lang.es => "es"
  | Lang.fr => "fr"

/-- Modelled from the spec: the `TranslationRecord` shape lives in
src/i18n.ts, which is not among the provided sources. The fields here are
exactly the per-item title/description fields that `allContent`
(src/App.tsx lines 72-80) reads from the active record; spec section 3
guarantees every Language maps to a complete record. The record's further
UI-label fields play no role in any claim and are omitted. -/
structure TranslationRecord where
  point1Title : String
  point1Desc : String
  point2Title : String
  point2Desc : String
  point3Title : String
  point3Desc : String
  point4Title : String
  point4Desc : String
  point5Title : String
  point5Desc : String
  ex1Title : String
  ex1Desc : String
  ex2Title : String
  ex2Desc : String
deriving DecidableEq, Repr

/-- Model of `allContent` (src/App.tsx lines 72-80): the ordered content
list assembled from the active translation record, five tips followed by
two examples, with the fixed icons of the source. -/
def allContent (t : TranslationRecord) : List ContentItem :=
  [ ⟨"tip", t.point1Title, t.point1Desc, "⚡"⟩,
    ⟨"tip", t.point2Title, t.point2Desc, "🎨"⟩,
    ⟨"tip", t.point3Title, t.point3Desc, "⛰️"⟩,
    ⟨"tip", t.point4Title, t.point4Desc, "🦋"⟩,
    ⟨"tip", t.point5Title, t.point5Desc, "🤝"⟩,
    ⟨"example", t.ex1Title, t.ex1Desc, "📝"⟩,
    ⟨"example", t.ex2Title, t.ex2Desc, "💼"⟩ ]

/-- The two theme values of the source (src/App.tsx line 54). -/
inductive Theme where
  | dark
  | light
deriving DecidableEq, Repr

/-- Model of the theme toggle handler (src/App.tsx line 149, and
`toggleTheme` in src/unnamed/part_000 line 154):
`t === 'dark' ? 'light' : 'dark'`. -/
def toggleTheme : Theme → Theme
  | Theme.dark => Theme.light
  | Theme.light => Theme.dark

/-- The document-level attributes written by the `useEffect` in
src/App.tsx lines 62-65: the root `dark` class, the reading direction,
and the declared language tag. -/
structure DocState where
  darkClass : Bool
  dir : String
  langTag : String
deriving DecidableEq, Repr

/-- Model of the `useEffect` body (src/App.tsx lines 62-65, likewise
src/unnamed/part_000 lines 147-152): toggle the `dark` root class on
`theme === 'dark'`, set `dir` to `'rtl'` iff the language is `'he'`, and
set the document language tag to the language code. -/
def applyDocumentEffects (theme : Theme) (lang : Lang) (d : DocState) :
    DocState :=
  { d with
    darkClass := theme == Theme.dark,
    dir := if lang == Lang.he then "rtl" else "ltr",
    langTag := langCode lang }

/-- One utterance handed to the speech synthesizer: its text and the
voice-locale tag assigned to it (src/App.tsx lines 9-14). -/
structure Utterance where
  text : String
  voiceLang : String
deriving DecidableEq, Repr

/-- State of the platform speech synthesizer: its utterance queue.
`speechSpeak` enqueues, `speechCancel` drops everything queued. -/
structure SpeechState where
  queue : List Utterance
deriving DecidableEq, Repr

/-- Model of `window.speechSynthesis.cancel()`: remove all utterances. -/
def speechCancel (_s : SpeechState) : SpeechState := ⟨[]⟩

/-- Model of `window.speechSynthesis.speak(u)`: enqueue the utterance. -/
def speechSpeak (u : Utterance) (s : SpeechState) : SpeechState :=
  ⟨s.queue ++ [u]⟩

/-- The voice-locale lookup table `langMap` (src/App.tsx lines 11-13). -/
def langMap : Lang → String
  | Lang.en => "en-US"
  | Lang.he => "he-IL"
  | Lang.zh => "zh-CN"
  | Lang.hi => "hi-IN"
  | Lang.de => "de-DE"
  | Lang.es => "es-ES"
  | Lang.fr => "fr-FR"

/-- Model of `speakText` (src/App.tsx lines 6-16): when the platform has
no speech-synthesis capability (`none`) the call returns with no effect;
otherwise it first cancels every queued utterance and then speaks the new
utterance carrying the mapped voice locale. -/
def speakText (text : String) (lang : Lang) (platform : Option SpeechState) :
    Option SpeechState :=
  match platform with
  | none => none
  | some s => some (speechSpeak ⟨text, langMap lang⟩ (speechCancel s))

/-- Capabilities of the share platform as `shareContent` probes them:
whether `navigator.share` exists, whether a native share call resolves,
and whether a clipboard write resolves. -/
structure SharePlatform where
  hasNativeShare : Bool
  nativeShareOk : Bool
  clipboardOk : Bool
deriving DecidableEq, Repr

/-- Observable outcome of one `shareContent` call: the text successfully
written to the system clipboard (if any), whether the success notice was
alerted, whether a native-share failure was logged by the catch handler,
whether a promise rejection was left with no handler attached, and whether
an exception escaped to the caller. -/
structure ShareOutcome where
  clipboard : Option String
  alerted : Bool
  loggedShareFailure : Bool
  uncaughtRejection : Bool
  thrownToCaller : Bool
deriving DecidableEq, Repr

/-- Model of `shareContent` (src/App.tsx lines 19-32). The native branch
awaits `navigator.share` inside try/catch, so a cancelled or failed share
is logged and swallowed. The fallback branch runs
`navigator.clipboard.writeText(title + ": " + text).then(alert)` with no
rejection handler: on success the formatted text is on the clipboard and
the notice is shown; on a rejected write the rejection stays unhandled
(there is no catch on that promise chain), though nothing is thrown
synchronously to the caller. -/
def shareContent (title text : String) (p : SharePlatform) : ShareOutcome :=
  if p.hasNativeShare then
    if p.nativeShareOk then ⟨none, false, false, false, false⟩
    else ⟨none, false, true, false, false⟩
  else
    if p.clipboardOk then
      ⟨some (title ++ ": " ++ text), true, false, false, false⟩
    else ⟨none, false, false, true, false⟩

/-- Abstract JSON values, the common domain of the platform pair
`JSON.stringify` / `JSON.parse`. The platform pair is modelled as the
identity embedding of this value domain into the downloaded artifact:
parsing the pretty-printed text of a value yields the value back (spec
section 6 lists the file-download mechanism among external collaborators),
so deep equality of the parsed artifact is stated against `Json` values. -/
inductive Json where
  | jstr : String → Json
  | jarr : List Json → Json
  | jobj : List (String × Json) → Json

/-- JSON encoding of one content item, with the field order of the object
literals in `allContent`: type, title, desc, icon. -/
def encodeItem (i : ContentItem) : Json :=
  Json.jobj [("type", Json.jstr i.type), ("title", Json.jstr i.title),
    ("desc", Json.jstr i.desc), ("icon", Json.jstr i.icon)]

/-- Deep-equality reading of one exported item back into a `ContentItem`. -/
def decodeItem : Json → Option ContentItem
  | Json.jobj [("type", Json.jstr ty), ("title", Json.jstr ti),
      ("desc", Json.jstr de), ("icon", Json.jstr ic)] => some ⟨ty, ti, de, ic⟩
  | _ => none

/-- Decode a list of exported items, failing if any element fails. -/
def decodeItemList : List Json → Option (List ContentItem)
  | [] => some []
  | j :: js =>
    match decodeItem j, decodeItemList js with
    | some i, some is => some (i :: is)
    | _, _ => none

/-- Decode a whole exported document, which must be a JSON array. -/
def decodeItems : Json → Option (List ContentItem)
  | Json.jarr js => decodeItemList js
  | _ => none

/-- A downloadable artifact: its file name and the JSON value serialized
into its body. -/
structure ExportArtifact where
  fileName : String
  content : Json

/-- Model of `exportResults` (src/App.tsx lines 91-98): serialize the
currently filtered content with `JSON.stringify(filteredContent, null, 2)`
into a blob downloaded as `storymaster-results-<lang>.json`. -/
def exportResults (lang : Lang) (filtered : List ContentItem) :
    ExportArtifact :=
  ⟨"storymaster-results-" ++ langCode lang ++ ".json",
    Json.jarr (filtered.map encodeItem)⟩

/-- Model of the `exportResults` variant in src/unnamed/part_001 lines
91-100: the same serialized content offered through a data URI, downloaded
as `storymaster-export-<lang>.json`. -/
def exportResultsDataUri (lang : Lang) (filtered : List ContentItem) :
    ExportArtifact :=
  ⟨"storymaster-export-" ++ langCode lang ++ ".json",
    Json.jarr (filtered.map encodeItem)⟩

/-- The three font sizes of the source (src/App.tsx line 55). -/
inductive FontSize where
  | sm
  | md
  | lg
deriving DecidableEq, Repr

/-- The view state owned by `App` (src/App.tsx lines 53-57). -/
structure ViewState where
  lang : Lang
  theme : Theme
  fontSize : FontSize
  searchQuery : String
  showScrollTop : Bool
deriving DecidableEq, Repr

/-- The initial view state (src/App.tsx lines 53-57): English, dark theme,
medium font, empty query, scroll-top button hidden. -/
def initialViewState : ViewState :=
  ⟨Lang.en, Theme.dark, FontSize.md, "", false⟩

/-- Model of the autocomplete block (src/App.tsx lines 207-219): the
suggestion list renders only when `searchQuery` is truthy (non-empty) and
the filtered result is non-empty, and then shows
`filteredContent.slice(0, 5)`. -/
def autocompleteSuggestions (searchQuery : String)
    (filtered : List ContentItem) : Option (List ContentItem) :=
  if searchQuery ≠ "" ∧ 0 < filtered.length then some (filtered.take 5)
  else none

/-- Model of a suggestion click (src/App.tsx line 212):
`setSearchQuery(item.title)` replaces the query with the item title. -/
def selectSuggestion (item : ContentItem) (st : ViewState) : ViewState :=
  { st with searchQuery := item.title }

theorem startsWith_nil (s : List Char) : startsWith s [] = true := by
  cases s <;> rfl

theorem startsWith_iff (s q : List Char) :
    startsWith s q = true ↔ ∃ r, s = q ++ r := by
  induction q generalizing s with
  | nil =>
    simp [startsWith_nil]
  | cons d ds ih =>
    cases s with
    | nil =>
      simp [startsWith]
    | cons c cs =>
      constructor
      · intro h
        rcases Bool.and_eq_true_iff.mp h with ⟨hc, hrest⟩
        rcases (ih cs).mp hrest with ⟨r, hr⟩
        exact ⟨r, by simp [beq_iff_eq.mp hc, hr]⟩
      · rintro ⟨r, hr⟩
        have hr2 : c :: cs = d :: (ds ++ r) := by simpa using hr
        rcases List.cons_eq_cons.mp hr2 with ⟨hc, hcs⟩
        have hrec : startsWith cs ds = true := (ih cs).mpr ⟨r, hcs⟩
        simp [startsWith, hc, hrec]

theorem containsSub_iff (s q : List Char) :
    containsSub s q = true ↔ IsSubstring q s := by
  induction s with
  | nil =>
    constructor
    · intro h
      have h0 : startsWith ([] : List Char) q = true := by
        simpa [containsSub] using h
      rcases (startsWith_iff [] q).mp h0 with ⟨r, hr⟩
      rcases List.append_eq_nil.mp hr.symm with ⟨hq, hrnil⟩
      exact ⟨[], [], by simp [hq]⟩
    · rintro ⟨pre, post, h⟩
      have hq : q = [] := by
        rcases List.append_eq_nil.mp h.symm with ⟨hpq, hpost⟩
        exact (List.append_eq_nil.mp hpq).2
      simp [containsSub, hq, startsWith_nil]
  | cons c cs ih =>
    constructor
    · intro h
      have h0 : startsWith (c :: cs) q = true ∨ containsSub cs q = true := by
        simpa [containsSub, Bool.or_eq_true] using h
      rcases h0 with h0 | h0
      · rcases (startsWith_iff (c :: cs) q).mp h0 with ⟨r, hr⟩
        exact ⟨[], r, by simp [hr]⟩
      · rcases ih.mp h0 with ⟨pre, post, hp⟩
        exact ⟨c :: pre, post, by simp [hp]⟩
    · rintro ⟨pre, post, hp⟩
      cases pre with
      | nil =>
        have : startsWith (c :: cs) q = true :=
          (startsWith_iff (c :: cs) q).mpr ⟨post, by simpa using hp⟩
        simp [containsSub, this]
      | cons p ps =>
        have hp2 : c :: cs = p :: (ps ++ q ++ post) := by simpa using hp
        have hcs : cs = ps ++ q ++ post := (List.cons_eq_cons.mp hp2).2
        have hrec : containsSub cs q = true := ih.mpr ⟨ps, post, hcs⟩
        simp [containsSub, hrec]

theorem containsSub_empty (s : List Char) : containsSub s [] = true := by
  cases s <;> simp [containsSub, startsWith_nil]

theorem jsLower_empty : jsLower "" = [] := rfl

theorem itemMatches_empty (i : ContentItem) : itemMatches "" i = true := by
  simp [itemMatches, jsLower_empty, containsSub_empty]

/-- Central characterization: for every query, including the empty one,
`filteredContent` equals a plain `List.filter` with the matching
predicate (the empty query matches every item, so the early return on the
falsy query agrees with the filter). -/
theorem filteredContent_eq_filter (l : List ContentItem) (q : String) :
    filteredContent l q = l.filter (itemMatches q) := by
  unfold filteredContent
  by_cases hq : q = ""
  · subst hq
    simp [List.filter_eq_self.mpr fun a _ => itemMatches_empty a]
  · simp [hq]

theorem itemMatches_iff_claimMatch (q : String) (i : ContentItem) :
    itemMatches q i = true ↔ claimMatch q i := by
  simp [itemMatches, Bool.or_eq_true, containsSub_iff, claimMatch]

/-- C1: for every content sequence and every query string, an item is in
the filter output iff the case-folded query is a substring of its
case-folded title or description, and the output is an order-preserving
subsequence of the input. -/
theorem filteredContent_characterization (l : List ContentItem) (q : String) :
    (∀ i : ContentItem, i ∈ filteredContent l q ↔ i ∈ l ∧ claimMatch q i)
      ∧ List.Sublist (filteredContent l q) l := by
  rw [filteredContent_eq_filter]
  refine ⟨fun i => ?_, List.filter_sublist l⟩
  rw [List.mem_filter, itemMatches_iff_claimMatch]

/-- C2 counterexample: the claim that a whitespace-only query returns the
full sequence is false. On the list whose single item contains no space in
title or description, the query consisting of one space filters everything
out, because only the empty string is treated as "no filter". -/
theorem whitespace_query_counterexample :
    ¬ (∀ (l : List ContentItem) (q : String), l ≠ [] →
        (q = "" ∨ ∀ c ∈ q.data, c.isWhitespace) → filteredContent l q = l) := by
  intro h
  have h1 : filteredContent cexList " " = cexList :=
    h cexList " " (by decide) (Or.inr (by decide))
  have h2 : filteredContent cexList " " = [] := by decide
  rw [h2] at h1
  exact absurd h1 (by decide)

/-- C2 amended: the empty query returns the full sequence unchanged, but
every non-empty query — whitespace-only queries included — is applied
literally as a case-insensitive substring filter. -/
theorem empty_query_no_filter (l : List ContentItem) (q : String) :
    filteredContent l "" = l ∧ filteredContent l q = l.filter (itemMatches q) :=
  ⟨rfl, filteredContent_eq_filter l q⟩

/-- C7: filtering is idempotent — filtering an already-filtered sequence
with the same query yields the same sequence. -/
theorem filteredContent_idempotent (l : List ContentItem) (q : String) :
    filteredContent (filteredContent l q) q = filteredContent l q := by
  rw [filteredContent_eq_filter, filteredContent_eq_filter,
    List.filter_filter]
  exact List.filter_congr fun a _ => by cases itemMatches q a <;> rfl

/-- C4: for any translation table and any two languages, the assembled
content sequences have the same length and the same kind tag at every
position — concretely 7 items, five tagged "tip" followed by two tagged
"example" — because assembly is a pure function of the record with a fixed
structure. -/
theorem allContent_structure_invariant
    (translations : Lang → TranslationRecord) (l₁ l₂ : Lang) :
    (allContent (translations l₁)).length = (allContent (translations l₂)).length
      ∧ (allContent (translations l₁)).map ContentItem.type
          = (allContent (translations l₂)).map ContentItem.type
      ∧ (allContent (translations l₁)).length = 7
      ∧ (allContent (translations l₁)).map ContentItem.type
          = ["tip", "tip", "tip", "tip", "tip", "example", "example"] :=
  ⟨rfl, rfl, rfl, rfl⟩

/-- C8: after the language effect runs, the document direction is
right-to-left exactly when the language is Hebrew, left-to-right for every
other language, and the declared language tag is the language code. -/
theorem language_effect_direction (theme : Theme) (lang : Lang)
    (d : DocState) :
    ((applyDocumentEffects theme lang d).dir = "rtl" ↔ lang = Lang.he)
      ∧ ((applyDocumentEffects theme lang d).dir = "ltr" ↔ lang ≠ Lang.he)
      ∧ (applyDocumentEffects theme lang d).langTag = langCode lang := by
  cases lang <;> simp [applyDocumentEffects]

/-- C9: the theme toggle is an involution, so toggling twice restores the
theme and hence the dark-mode presentation class applied at the document
root. -/
theorem toggleTheme_involution (th : Theme) (lang : Lang) (d : DocState) :
    toggleTheme (toggleTheme th) = th
      ∧ applyDocumentEffects (toggleTheme (toggleTheme th)) lang d
          = applyDocumentEffects th lang d := by
  cases th <;> exact ⟨rfl, rfl⟩

/-- C6: `speakText` is a silent no-op without the platform capability;
with it, the queue afterwards holds exactly the one new utterance (the
cancel pre-empts whatever was in flight), so a second invocation removes
the first utterance before the second begins; and the voice-locale table
covers every supported language. -/
theorem speakText_cancel_and_locale (text₁ text₂ : String) (lang₁ lang₂ : Lang)
    (s : SpeechState) :
    speakText text₁ lang₁ none = none
      ∧ speakText text₁ lang₁ (some s) = some ⟨[⟨text₁, langMap lang₁⟩]⟩
      ∧ speakText text₂ lang₂ (speakText text₁ lang₁ (some s))
          = some ⟨[⟨text₂, langMap lang₂⟩]⟩
      ∧ langMap lang₁
          ∈ ["en-US", "he-IL", "zh-CN", "hi-IN", "de-DE", "es-ES", "fr-FR"] := by
  refine ⟨rfl, rfl, rfl, ?_⟩
  cases lang₁ <;> simp [langMap]

/-- C3 counterexample: on a platform without native share whose clipboard
write rejects, nothing is placed on the clipboard and the rejection is not
caught locally, so the claim that the fallback always writes the clipboard
and that every failure is caught locally is false. -/
theorem share_clipboard_counterexample :
    ¬ (∀ (title text : String) (p : SharePlatform),
        (p.hasNativeShare = false →
          (shareContent title text p).clipboard = some (title ++ ": " ++ text))
        ∧ (shareContent title text p).uncaughtRejection = false) := by
  intro h
  exact absurd (h "a" "b" ⟨false, false, false⟩).2 (by decide)

/-- C3 amended: no exception ever propagates synchronously to the caller;
with native share present every failure is caught by the local handler;
without native share the fallback places "title: text" on the clipboard
exactly when the write resolves, while a rejected write leaves nothing on
the clipboard and an unhandled promise rejection. -/
theorem share_fallback_containment (title text : String) (p : SharePlatform) :
    (shareContent title text p).thrownToCaller = false
      ∧ (shareContent title text
          ⟨true, p.nativeShareOk, p.clipboardOk⟩).uncaughtRejection = false
      ∧ (shareContent title text ⟨false, p.nativeShareOk, true⟩).clipboard
          = some (title ++ ": " ++ text)
      ∧ (shareContent title text ⟨false, p.nativeShareOk, false⟩).clipboard
          = none
      ∧ (shareContent title text
          ⟨false, p.nativeShareOk, false⟩).uncaughtRejection = true := by
  rcases p with ⟨hs, so, co⟩
  cases hs <;> cases so <;> cases co <;> exact ⟨rfl, rfl, rfl, rfl, rfl⟩

theorem decodeItem_encodeItem (i : ContentItem) :
    decodeItem (encodeItem i) = some i := rfl

theorem decodeItemList_map_encode (l : List ContentItem) :
    decodeItemList (l.map encodeItem) = some l := by
  induction l with
  | nil => rfl
  | cons i is ih => simp [decodeItemList, decodeItem_encodeItem, ih]

/-- C5: both export variants name the artifact deterministically from the
language code — `storymaster-results-<code>.json` and
`storymaster-export-<code>.json` — and in both the parsed content
deep-equals the filtered sequence that was exported. -/
theorem exportResults_roundtrip (lang : Lang) (filtered : List ContentItem) :
    (exportResults lang filtered).fileName
        = "storymaster-results-" ++ langCode lang ++ ".json"
      ∧ (exportResultsDataUri lang filtered).fileName
        = "storymaster-export-" ++ langCode lang ++ ".json"
      ∧ decodeItems (exportResults lang filtered).content = some filtered
      ∧ decodeItems (exportResultsDataUri lang filtered).content
        = some filtered := by
  refine ⟨rfl, rfl, ?_, ?_⟩ <;>
    simp [exportResults, exportResultsDataUri, decodeItems,
      decodeItemList_map_encode]

/-- C10: with a non-empty query and a non-empty n-item filtered result the
rendered suggestion list is exactly the first min(5, n) filtered items in
filtered order; no list renders for an empty query or an empty result; and
selecting a suggestion replaces the search query with that item title. -/
theorem autocomplete_behavior (q : String) (filtered : List ContentItem)
    (item : ContentItem) (st : ViewState) (hq : q ≠ "") (hf : filtered ≠ []) :
    autocompleteSuggestions q filtered = some (filtered.take 5)
      ∧ (filtered.take 5).length = min 5 filtered.length
      ∧ filtered.take 5 ++ filtered.drop 5 = filtered
      ∧ autocompleteSuggestions "" filtered = none
      ∧ autocompleteSuggestions q [] = none
      ∧ (selectSuggestion item st).searchQuery = item.title := by
  refine ⟨?_, List.length_take 5 filtered, List.take_append_drop 5 filtered,
    ?_, ?_, rfl⟩
  · simp [autocompleteSuggestions, hq, List.length_pos.mpr hf]
  · simp [autocompleteSuggestions]
  · simp [autocompleteSuggestions]

/-- Witness for C10: the suggestion behavior at the concrete query "a" and
the one-item list. -/
theorem autocomplete_behavior_witness :
    ("a" : String) ≠ "" ∧ cexList ≠ []
      ∧ (autocompleteSuggestions "a" cexList = some (cexList.take 5)
        ∧ (cexList.take 5).length = min 5 cexList.length
        ∧ cexList.take 5 ++ cexList.drop 5 = cexList
        ∧ autocompleteSuggestions "" cexList = none
        ∧ autocompleteSuggestions "a" [] = none
        ∧ (selectSuggestion cexItem initialViewState).searchQuery
            = cexItem.title) :=
  ⟨by decide, by decide,
    autocomplete_behavior "a" cexList cexItem initialViewState
      (by decide) (by decide)⟩
